import Mathlib

/-!
A verification development for the gatherings module
(modules/gatherings/gatherings.py): a shallow embedding of the
gatherings entity, its per-locale memcache read path, its write path
(put / delete / REST save / set-draft-status), the translation overlay
and the news-notification side effects, together with theorems about the
behaviour of these operations.

Modelling conventions:
- datetimes are natural numbers (seconds since an epoch);
- the memcache (models.MemcacheManager) is an association list from
  string keys to cached listings;
- the entity store is the list of entities in scan order;
- the news sink (news.CourseNewsDao) is the list of resource keys of
  pending news items;
- each write operation additionally returns the ordered list of side
  effects it performed, so ordering claims can be stated;
- Python truthiness of locale arguments (None and the empty string are
  falsy) is modelled explicitly.
-/

namespace Gatherings

/-- A gathering record (class GatheringEntity): db fields title,
start_time, end_time, html, is_draft, plus the store-assigned key id. -/
structure Gathering where
  gid : Nat
  title : String
  html : String
  start_time : Nat
  end_time : Nat
  is_draft : Bool
deriving DecidableEq

/-- The memcache, modelled as an association list from string keys to
cached gathering listings. -/
abbrev Memcache := List (String × List Gathering)

/-- MemcacheManager.get: first value stored under the key, if any. -/
def mcGet : Memcache → String → Option (List Gathering)
  | [], _ => none
  | p :: rest, k => if p.1 = k then some p.2 else mcGet rest k

/-- MemcacheManager.delete: drop every entry stored under the key. -/
def mcDelete : Memcache → String → Memcache
  | [], _ => []
  | p :: rest, k => if p.1 = k then mcDelete rest k else p :: mcDelete rest k

/-- MemcacheManager.set: overwrite the value stored under the key. -/
def mcSet (c : Memcache) (k : String) (v : List Gathering) : Memcache :=
  (k, v) :: mcDelete c k

/-- GatheringEntity._MEMCACHE_KEY. -/
def MEMCACHE_KEY : String := "gatherings"

/-- GatheringEntity._cache_key(locale): the default key when the locale
argument is falsy (None or the empty string), otherwise the default key
with ":" and the locale appended. -/
def cache_key (locale : Option String) : String :=
  match locale with
  | none => MEMCACHE_KEY
  | some l => if l = "" then MEMCACHE_KEY else MEMCACHE_KEY ++ ":" ++ l

/-- Python truthiness of the locale argument: None and "" are falsy. -/
def locale_truthy (locale : Option String) : Bool :=
  match locale with
  | none => false
  | some l => l != ""

/-- GatheringEntity.purge_cache(locale): delete the cache partition for
the (possibly absent) locale. -/
def purge_cache (c : Memcache) (locale : Option String) : Memcache :=
  mcDelete c (cache_key locale)

/-- The state the gatherings module operates on: the entity store (in
scan order), the memcache, and the pending news items (resource keys
held by news.CourseNewsDao). -/
structure RepoState where
  store : List Gathering
  cache : Memcache
  news : List String
deriving DecidableEq

/-- str(TranslatableResourceGathering.key_for_entity(g)): the resource
key naming a gathering, built from its store id. -/
def resource_key (g : Gathering) : String :=
  "gathering:" ++ toString g.gid

/-- One side effect performed by a write operation, recorded in the
order the code performs them. -/
inductive Effect where
  | newsAdd (resKey : String) (url : String)
  | newsRemove (resKey : String)
  | storePut (g : Gathering)
  | storeDelete (gid : Nat)
  | cachePurge (key : String)
deriving DecidableEq

/-- GatheringEntity.get(key): find the record with the given id. -/
def store_get (store : List Gathering) (k : Nat) : Option Gathering :=
  store.find? (fun g => g.gid == k)

/-- The datastore put of a record: replace the record with the same id,
or append the record when its id is new. -/
def store_put_record (store : List Gathering) (g : Gathering) : List Gathering :=
  if store.any (fun x => x.gid == g.gid)
  then store.map (fun x => if x.gid == g.gid then g else x)
  else store ++ [g]

/-- The datastore delete of the record with the given id. -/
def store_delete_record (store : List Gathering) (k : Nat) : List Gathering :=
  store.filter (fun x => x.gid != k)

/-- news.CourseNewsDao.add_news_item: record a pending news item. -/
def news_add_item (ns : List String) (rk : String) : List String :=
  ns ++ [rk]

/-- news.CourseNewsDao.remove_news_item: drop every pending news item
with the given resource key (a no-op when none is pending). -/
def news_remove_item (ns : List String) (rk : String) : List String :=
  ns.filter (fun k => k != rk)

/-- Insertion step of a stable descending sort: the new element is
placed before the first element whose key is not larger. -/
def insert_desc (key : Gathering → Nat) (x : Gathering) : List Gathering → List Gathering
  | [] => [x]
  | y :: ys => if key y ≤ key x then x :: y :: ys else y :: insert_desc key x ys

/-- items.sort(key=lambda item: item.start_time, reverse=True), modelled
as a stable descending insertion sort. -/
def sort_desc (key : Gathering → Nat) : List Gathering → List Gathering
  | [] => []
  | x :: xs => insert_desc key x (sort_desc key xs)

/-- The external translation service
(i18n_dashboard.translate_dto_list): given a resource key and the
(title, html) pair of an item, returns the translated (title, html)
pair for the current locale. -/
abbrev TranslationService := String → String × String → String × String

/-- The per-item step of GatheringEntity._translate_content: the item's
title and html are replaced by their translations, looked up under the
item's resource key. -/
def translate_item (tr : TranslationService) (g : Gathering) : Gathering :=
  let t := tr (resource_key g) (g.title, g.html)
  { g with title := t.1, html := t.2 }

/-- GatheringEntity._translate_content(items): rewrite title and html of
every in-memory item via the translation service. -/
def translate_content (tr : TranslationService) (items : List Gathering) : List Gathering :=
  items.map (translate_item tr)

/-- GatheringEntity.get_gatherings(locale): return the cached listing
for the locale's cache key if present; otherwise scan the store, sort
descending by start_time, translate when a truthy locale was requested,
cache the result under the locale's key, and return it. -/
def get_gatherings (tr : TranslationService) (locale : Option String) (s : RepoState) :
    List Gathering × RepoState :=
  let k := cache_key locale
  match mcGet s.cache k with
  | some items => (items, s)
  | none =>
    let sorted := sort_desc (fun g => g.start_time) s.store
    let items := if locale_truthy locale then translate_content tr sorted else sorted
    (items, { s with cache := mcSet s.cache k items })

/-- GatheringEntity.put (instance override): the normal datastore put,
then purge_cache() with no locale argument.  (On translatable courses
the code additionally schedules an i18n progress update, which touches
neither the store, the cache, nor the news sink.) -/
def entity_put (s : RepoState) (g : Gathering) : RepoState × List Effect :=
  let s1 : RepoState := { s with store := store_put_record s.store g }
  let s2 : RepoState := { s1 with cache := purge_cache s1.cache none }
  (s2, [Effect.storePut g, Effect.cachePurge (cache_key none)])

/-- GatheringEntity.delete (instance override): remove the pending news
item for this entity, then the normal datastore delete, then
purge_cache() with no locale argument. -/
def entity_delete (s : RepoState) (g : Gathering) : RepoState × List Effect :=
  let s1 : RepoState := { s with news := news_remove_item s.news (resource_key g) }
  let s2 : RepoState := { s1 with store := store_delete_record s1.store g.gid }
  let s3 : RepoState := { s2 with cache := purge_cache s2.cache none }
  (s3, [Effect.newsRemove (resource_key g), Effect.storeDelete g.gid,
        Effect.cachePurge (cache_key none)])

/-- TranslatableResourceGathering.notify_translations_changed: purge the
cache partition of the resource bundle key's locale. -/
def notify_translations_changed (s : RepoState) (locale : String) : RepoState :=
  { s with cache := purge_cache s.cache (some locale) }

/-- GatheringsRights.apply_rights(handler, items): editors see every
item; everyone else sees the items accumulated by the loop that appends
exactly the non-draft items, in order. -/
def apply_rights (canEdit : Bool) (items : List Gathering) : List Gathering :=
  if canEdit then items
  else items.foldl (fun allowed item => if !item.is_draft then allowed ++ [item] else allowed) []

/-- Outcome of GatheringsItemRESTHandler.get for a single item. -/
inductive GetResult where
  | notFound
  | accessDenied
  | success (g : Gathering)
deriving DecidableEq

/-- GatheringsItemRESTHandler.get: 404 when the key resolves to no
entity; otherwise apply_rights on the one-element list, 401 when
nothing is viewable, else the item is returned. -/
def rest_get (canEdit : Bool) (ent : Option Gathering) : GetResult :=
  match ent with
  | none => GetResult.notFound
  | some e =>
    match apply_rights canEdit [e] with
    | [] => GetResult.accessDenied
    | v :: _ => GetResult.success v

/-- The update dict produced by transforms.json_to_dict of the REST put
payload against GatheringsItemRESTHandler.SCHEMA(): fields title,
start_time, end_time, and the optional fields html and is_draft (the
key field is deleted before the dict is applied). -/
structure UpdateDict where
  title : String
  html : Option String
  start_time : Nat
  end_time : Nat
  is_draft : Option Bool
deriving DecidableEq

/-- update_dict.get('set_draft') in GatheringsItemRESTHandler.put: the
SCHEMA() has no field named set_draft (the draft field is is_draft), so
this lookup always returns None. -/
def update_get_set_draft (_ : UpdateDict) : Option Bool := none

/-- Python truthiness of an optional boolean: None is falsy. -/
def py_truthy (o : Option Bool) : Bool :=
  match o with
  | none => false
  | some b => b

/-- transforms.dict_to_entity(entity, update_dict): set every field
present in the dict on the entity; absent optional fields leave the
entity's field unchanged. -/
def dict_to_entity (g : Gathering) (u : UpdateDict) : Gathering :=
  { g with title := u.title, html := u.html.getD g.html,
           start_time := u.start_time, end_time := u.end_time,
           is_draft := u.is_draft.getD g.is_draft }

/-- An HTTP JSON response: status code and message. -/
inductive Response where
  | ok (msg : String)
  | err (code : Nat) (msg : String)
deriving DecidableEq

/-- GatheringsItemRESTHandler.put (after the xsrf check): 401 unless the
caller can edit, 404 when the key resolves to no entity; otherwise,
when the entity is a draft and update_dict.get('set_draft') is falsy, a
news item for the entity is added first; then the update dict is
applied and the entity is put (which purges the default cache
partition). -/
def rest_put (canEdit : Bool) (key : Nat) (u : UpdateDict) (s : RepoState) :
    Response × RepoState × List Effect :=
  if !canEdit then (Response.err 401 "Access denied.", s, [])
  else
    match store_get s.store key with
    | none => (Response.err 404 "Object not found.", s, [])
    | some entity =>
      let fires := entity.is_draft && !(py_truthy (update_get_set_draft u))
      let s1 : RepoState :=
        if fires then { s with news := news_add_item s.news (resource_key entity) } else s
      let notifEff : List Effect :=
        if fires then [Effect.newsAdd (resource_key entity) "gatherings"] else []
      let entity2 := dict_to_entity entity u
      let put_result := entity_put s1 entity2
      (Response.ok "Saved.", put_result.1, notifEff ++ put_result.2)

/-- The tail of GatheringsItemRESTHandler.post_set_draft_status once the
set_draft request value has been parsed to a boolean: when the entity
is a draft and the new flag is false, a news item is added first; then
the flag is set and the entity is put. -/
def set_draft_apply (g : Gathering) (b : Bool) (s : RepoState) :
    Response × RepoState × List Effect :=
  let fires := g.is_draft && !b
  let s1 : RepoState :=
    if fires then { s with news := news_add_item s.news (resource_key g) } else s
  let notifEff : List Effect :=
    if fires then [Effect.newsAdd (resource_key g) "gatherings"] else []
  let g2 : Gathering := { g with is_draft := b }
  let put_result := entity_put s1 g2
  (Response.ok "Draft status set.", put_result.1, notifEff ++ put_result.2)

/-- GatheringsItemRESTHandler.post_set_draft_status: 401 unless the
caller can edit, 404 when the key resolves to no entity; the set_draft
request value "1" means true and "0" means false, and any other value
is answered with a 401 error before anything is modified. -/
def post_set_draft_status (canEdit : Bool) (key : Nat) (set_draft : String) (s : RepoState) :
    Response × RepoState × List Effect :=
  if !canEdit then (Response.err 401 "Access denied.", s, [])
  else
    match store_get s.store key with
    | none => (Response.err 404 "Object not found.", s, [])
    | some entity =>
      if set_draft = "1" then set_draft_apply entity true s
      else if set_draft = "0" then set_draft_apply entity false s
      else (Response.err 401 "Invalid set_draft value, expected 0 or 1.", s, [])

/-- The locale normalization in GatheringsStudentHandler.get_list: the
current locale is passed to get_gatherings, except that the course's
default locale is collapsed to None. -/
def get_list_locale (current default_locale : String) : Option String :=
  if current = default_locale then none else some current

/-- A Python runtime error raised by the embedded code. -/
inductive PyError where
  | nameError (n : String)
deriving DecidableEq

/-- The names in scope inside the body of GatheringEntity.make: the
parameters cls, title, html, is_draft and the local variable entity. -/
def make_local_names : List String := ["cls", "title", "html", "is_draft", "entity"]

/-- Python name resolution inside GatheringEntity.make. -/
def resolve_name (n : String) : Option String :=
  if n ∈ make_local_names then some n else none

/-- GatheringEntity.make(title, html, is_draft): sets title and
start_time, then evaluates the expression for end_time, whose operand
is written as a read of the name entitity; that name is not in scope,
so the read raises NameError before end_time is ever assigned.  Had the
name resolved to the entity, the result would be the record with
end_time thirty minutes (1800 seconds) after start_time. -/
def make (now : Nat) (title html : String) (is_draft : Bool) : Except PyError Gathering :=
  match resolve_name "entitity" with
  | none => Except.error (PyError.nameError "entitity")
  | some _ =>
    Except.ok { gid := 0, title := title, html := html,
                start_time := now, end_time := now + 30 * 60, is_draft := is_draft }

/-! Concrete instances used by witness theorems. -/

/-- The identity translation service. -/
def trId : TranslationService := fun _ p => p

/-- A translation service that visibly marks both fields. -/
def trMark : TranslationService := fun _ p => ("fr:" ++ p.1, "fr:" ++ p.2)

/-- A concrete draft gathering. -/
def gd : Gathering :=
  { gid := 1, title := "T", html := "H", start_time := 100, end_time := 1900, is_draft := true }

/-- A concrete published gathering. -/
def gp : Gathering :=
  { gid := 2, title := "U", html := "I", start_time := 200, end_time := 2000, is_draft := false }

/-- A concrete update dict that keeps the entity in draft state. -/
def u_keep_draft : UpdateDict :=
  { title := "T2", html := some "H2", start_time := 100, end_time := 1900,
    is_draft := some true }

/-- A state holding only the draft gathering, with an empty cache and no
pending news. -/
def s_one : RepoState := { store := [gd], cache := [], news := [] }

/-- A state whose cache holds a French partition. -/
def s_fr : RepoState :=
  { store := [gp], cache := [(cache_key (some "fr"), [gp])], news := [] }

/-- Three concrete gatherings with strictly decreasing start times. -/
def g1c : Gathering :=
  { gid := 11, title := "A", html := "a", start_time := 30, end_time := 40, is_draft := false }

/-- See g1c. -/
def g2c : Gathering :=
  { gid := 12, title := "B", html := "b", start_time := 20, end_time := 25, is_draft := false }

/-- See g1c. -/
def g3c : Gathering :=
  { gid := 13, title := "C", html := "c", start_time := 10, end_time := 15, is_draft := true }

/-! Helper lemmas about the memcache model and the cache keys. -/

theorem mcGet_mcDelete_self (c : Memcache) (k : String) :
    mcGet (mcDelete c k) k = none := by
  induction c with
  | nil => rfl
  | cons p rest ih =>
    by_cases h : p.1 = k
    · simpa [mcDelete, h] using ih
    · simpa [mcDelete, mcGet, h] using ih

theorem mcGet_mcDelete_ne (c : Memcache) (k k2 : String) (h : k2 ≠ k) :
    mcGet (mcDelete c k) k2 = mcGet c k2 := by
  induction c with
  | nil => rfl
  | cons p rest ih =>
    by_cases h1 : p.1 = k
    · simp [mcDelete, mcGet, h1, ih, Ne.symm h]
    · by_cases h2 : p.1 = k2 <;> simp [mcDelete, mcGet, h1, h2, ih, h]

theorem mcGet_mcSet_ne (c : Memcache) (k : String) (v : List Gathering)
    (k2 : String) (h : k2 ≠ k) :
    mcGet (mcSet c k v) k2 = mcGet c k2 := by
  have hk : k ≠ k2 := fun he => h he.symm
  simp [mcSet, mcGet, hk, mcGet_mcDelete_ne c k k2 h]

theorem cache_key_some_ne_default (l : String) (h : l ≠ "") :
    cache_key (some l) ≠ cache_key none := by
  simp only [cache_key, MEMCACHE_KEY, if_neg h]
  intro heq
  have hlen := congrArg String.length heq
  rw [String.length_append, String.length_append,
      show (":" : String).length = 1 from rfl] at hlen
  omega

theorem cache_key_some_inj (l1 l2 : String) (h1 : l1 ≠ "") (h2 : l2 ≠ "")
    (h : l1 ≠ l2) : cache_key (some l1) ≠ cache_key (some l2) := by
  simp only [cache_key, MEMCACHE_KEY, if_neg h1, if_neg h2]
  intro heq
  apply h
  have hd := congrArg String.data heq
  rw [String.data_append, String.data_append, String.data_append,
      String.data_append, List.append_assoc, List.append_assoc] at hd
  exact String.ext (List.append_cancel_left (List.append_cancel_left hd))

theorem apply_rights_foldl (items acc : List Gathering) :
    items.foldl (fun allowed item => if !item.is_draft then allowed ++ [item] else allowed) acc
      = acc ++ items.filter (fun i => !i.is_draft) := by
  induction items generalizing acc with
  | nil => simp
  | cons x xs ih =>
    rw [List.foldl_cons, List.filter_cons]
    by_cases h : x.is_draft
    · simpa [h] using ih acc
    · simpa [h, List.append_assoc] using ih (acc ++ [x])

/-! Claim theorems. -/

/-- C1: the claim says a draft-to-draft write through the save (REST
put) path emits zero notifications.  The code disagrees: the put
handler emits its notification whenever the stored entity is a draft,
because it tests update_dict.get('set_draft') and the put schema has no
set_draft field (its draft field is named is_draft), so the test never
sees the requested draft status.  Concretely, saving the draft
gathering gd with a payload that keeps is_draft = true leaves the
entity a draft, yet emits exactly one newsAdd effect and records the
news item. -/
theorem c1_put_draft_to_draft_emits_notification :
    (rest_put true 1 u_keep_draft s_one).2.2.countP
        (fun e => match e with | Effect.newsAdd _ _ => true | _ => false) = 1
    ∧ (rest_put true 1 u_keep_draft s_one).2.1.news = [resource_key gd]
    ∧ (dict_to_entity gd u_keep_draft).is_draft = true := by
  exact ⟨rfl, rfl, rfl⟩

/-- C4: the read path collapses the default locale: the locale
normalization of the student listing maps the course's default locale
to None, so listing with the default locale and listing with no locale
use the same cache key and return the identical result and state. -/
theorem c4_default_locale_collapse (d : String) (tr : TranslationService) (s : RepoState) :
    cache_key (get_list_locale d d) = cache_key none
    ∧ get_gatherings tr (get_list_locale d d) s = get_gatherings tr none s := by
  have h : get_list_locale d d = none := by simp [get_list_locale]
  rw [h]
  exact ⟨rfl, rfl⟩

/-- C5: the claim says make(title, html, is_draft) returns a record
whose end_time is start_time plus 30 minutes.  The code instead raises
NameError on every call: the end_time expression reads the undefined
name entitity (a typo for entity), so no record is ever produced. -/
theorem c5_make_raises_name_error :
    make 1000 "X" "Y" true = Except.error (PyError.nameError "entitity") := by
  rfl

/-- C10: when post_set_draft_status receives a set_draft value other
than "0" or "1" (with an editor caller and an existing entity), it
responds with the invalid-value error, the state is returned unchanged
— draft flag untouched, nothing persisted — and no effect (in
particular no notification) is emitted. -/
theorem c10_invalid_set_draft_rejected (k : Nat) (sd : String) (s : RepoState)
    (g : Gathering) (hg : store_get s.store k = some g)
    (h1 : sd ≠ "1") (h0 : sd ≠ "0") :
    post_set_draft_status true k sd s
      = (Response.err 401 "Invalid set_draft value, expected 0 or 1.", s, []) := by
  simp [post_set_draft_status, hg, h1, h0]

/-- Witness for C10 at the concrete input set_draft = "2". -/
theorem c10_invalid_set_draft_witness :
    post_set_draft_status true 1 "2" s_one
      = (Response.err 401 "Invalid set_draft value, expected 0 or 1.", s_one, []) :=
  c10_invalid_set_draft_rejected 1 "2" s_one gd (by rfl) (by decide) (by decide)

/-- C2: after a store mutation through GatheringEntity.put or
GatheringEntity.delete, the default-locale cache partition is
invalidated (reads as absent) and every truthy-locale partition is left
unchanged; consequently a subsequent default-locale listing is
recomputed from the mutated store, while a locale whose partition is
still cached keeps returning its previously cached value. -/
theorem c2_store_mutation_invalidates_default_only
    (s : RepoState) (g : Gathering) (tr : TranslationService)
    (l : String) (hl : l ≠ "") (v : List Gathering) :
    mcGet (entity_put s g).1.cache (cache_key none) = none
    ∧ mcGet (entity_delete s g).1.cache (cache_key none) = none
    ∧ mcGet (entity_put s g).1.cache (cache_key (some l)) = mcGet s.cache (cache_key (some l))
    ∧ mcGet (entity_delete s g).1.cache (cache_key (some l)) = mcGet s.cache (cache_key (some l))
    ∧ (get_gatherings tr none (entity_put s g).1).1
        = sort_desc (fun x => x.start_time) (store_put_record s.store g)
    ∧ (mcGet s.cache (cache_key (some l)) = some v →
        (get_gatherings tr (some l) (entity_put s g).1).1 = v) := by
  have hpc : (entity_put s g).1.cache = mcDelete s.cache (cache_key none) := rfl
  have hdc : (entity_delete s g).1.cache = mcDelete s.cache (cache_key none) := rfl
  have hps : (entity_put s g).1.store = store_put_record s.store g := rfl
  have hne := cache_key_some_ne_default l hl
  refine ⟨?_, ?_, ?_, ?_, ?_, ?_⟩
  · rw [hpc]; exact mcGet_mcDelete_self _ _
  · rw [hdc]; exact mcGet_mcDelete_self _ _
  · rw [hpc]; exact mcGet_mcDelete_ne _ _ _ hne
  · rw [hdc]; exact mcGet_mcDelete_ne _ _ _ hne
  · have h0 : mcGet (entity_put s g).1.cache (cache_key none) = none := by
      rw [hpc]; exact mcGet_mcDelete_self _ _
    simp [get_gatherings, h0, locale_truthy, hps]
  · intro hv
    have hone : mcGet (entity_put s g).1.cache (cache_key (some l)) = some v := by
      rw [hpc, mcGet_mcDelete_ne _ _ _ hne]; exact hv
    simp [get_gatherings, hone]

/-- Witness for C2: putting the draft gathering into the state whose
cache holds a French partition invalidates the default partition,
leaves the French partition as it was, and a French listing still
returns the stale cached value. -/
theorem c2_store_mutation_witness :
    mcGet (entity_put s_fr gd).1.cache (cache_key none) = none
    ∧ mcGet (entity_put s_fr gd).1.cache (cache_key (some "fr"))
        = mcGet s_fr.cache (cache_key (some "fr"))
    ∧ (get_gatherings trId (some "fr") (entity_put s_fr gd).1).1 = [gp] := by
  have h := c2_store_mutation_invalidates_default_only s_fr gd trId "fr" (by decide) [gp]
  exact ⟨h.1, h.2.2.1, h.2.2.2.2.2 (by rfl)⟩

/-- C3: cache invalidation is partition-local: purging the partition of
one truthy locale leaves any other truthy locale's cached value
unchanged, and the translation-changed signal for locale L purges
exactly partition L — the default partition and every other locale's
partition read unchanged. -/
theorem c3_partition_independence (c : Memcache) (s : RepoState)
    (l1 l2 : String) (h1 : l1 ≠ "") (h2 : l2 ≠ "") (hne : l1 ≠ l2) :
    mcGet (purge_cache c (some l1)) (cache_key (some l2)) = mcGet c (cache_key (some l2))
    ∧ mcGet (notify_translations_changed s l1).cache (cache_key (some l1)) = none
    ∧ mcGet (notify_translations_changed s l1).cache (cache_key none)
        = mcGet s.cache (cache_key none)
    ∧ mcGet (notify_translations_changed s l1).cache (cache_key (some l2))
        = mcGet s.cache (cache_key (some l2)) := by
  have hc : (notify_translations_changed s l1).cache
      = mcDelete s.cache (cache_key (some l1)) := rfl
  have hk : cache_key (some l2) ≠ cache_key (some l1) :=
    cache_key_some_inj l2 l1 h2 h1 (Ne.symm hne)
  refine ⟨?_, ?_, ?_, ?_⟩
  · exact mcGet_mcDelete_ne _ _ _ hk
  · rw [hc]; exact mcGet_mcDelete_self _ _
  · rw [hc]; exact mcGet_mcDelete_ne _ _ _ (Ne.symm (cache_key_some_ne_default l1 h1))
  · rw [hc]; exact mcGet_mcDelete_ne _ _ _ hk

/-- Witness for C3 at the concrete locales "de" and "fr". -/
theorem c3_partition_independence_witness :
    mcGet (purge_cache s_fr.cache (some "de")) (cache_key (some "fr"))
      = mcGet s_fr.cache (cache_key (some "fr"))
    ∧ mcGet (notify_translations_changed s_fr "de").cache (cache_key (some "de")) = none
    ∧ mcGet (notify_translations_changed s_fr "de").cache (cache_key none)
      = mcGet s_fr.cache (cache_key none) := by
  have h := c3_partition_independence s_fr.cache s_fr "de" "fr" (by decide) (by decide) (by decide)
  exact ⟨h.1, h.2.1, h.2.2.1⟩

/-- C6: on a cache miss for the default partition, the listing returns
the store's records sorted in descending order of start_time: for three
records with start times T1 > T2 > T3, every one of the six store
orders yields the result [T1, T2, T3]. -/
theorem c6_listing_sorted_descending
    (g1 g2 g3 : Gathering) (tr : TranslationService)
    (h12 : g2.start_time < g1.start_time) (h23 : g3.start_time < g2.start_time)
    (store : List Gathering) (cache : Memcache) (ns : List String)
    (hmiss : mcGet cache (cache_key none) = none)
    (horder : store = [g1, g2, g3] ∨ store = [g1, g3, g2] ∨ store = [g2, g1, g3]
      ∨ store = [g2, g3, g1] ∨ store = [g3, g1, g2] ∨ store = [g3, g2, g1]) :
    (get_gatherings tr none { store := store, cache := cache, news := ns }).1
      = [g1, g2, g3] := by
  have h13 := Nat.lt_trans h23 h12
  have h12le := Nat.le_of_lt h12
  have h23le := Nat.le_of_lt h23
  have h13le := Nat.le_of_lt h13
  have n12 := Nat.not_le.mpr h12
  have n23 := Nat.not_le.mpr h23
  have n13 := Nat.not_le.mpr h13
  rcases horder with h | h | h | h | h | h <;> subst h <;>
    simp [get_gatherings, hmiss, locale_truthy, sort_desc, insert_desc,
      h12le, h23le, h13le, n12, n23, n13]

/-- Witness for C6 at a concrete store order [T3, T1, T2]. -/
theorem c6_listing_sorted_witness :
    (get_gatherings trId none { store := [g3c, g1c, g2c], cache := [], news := [] }).1
      = [g1c, g2c, g3c] :=
  c6_listing_sorted_descending g1c g2c g3c trId (by decide) (by decide)
    [g3c, g1c, g2c] [] [] (by rfl)
    (Or.inr (Or.inr (Or.inr (Or.inr (Or.inl rfl)))))

/-- C7: the translation overlay rewrites only the title and html of an
in-memory item — its id, start_time, end_time and is_draft pass through
unchanged — and a listing never writes to the entity store or the news
sink; after a truthy-locale listing, a default-locale listing that
misses its (untouched) partition is recomputed from the original,
untranslated store. -/
theorem c7_translation_overlay_frame
    (tr : TranslationService) (g : Gathering) (locale : Option String) (s : RepoState) :
    (translate_item tr g).gid = g.gid
    ∧ (translate_item tr g).start_time = g.start_time
    ∧ (translate_item tr g).end_time = g.end_time
    ∧ (translate_item tr g).is_draft = g.is_draft
    ∧ (get_gatherings tr locale s).2.store = s.store
    ∧ (get_gatherings tr locale s).2.news = s.news
    ∧ (locale_truthy locale = true → mcGet s.cache (cache_key none) = none →
        (get_gatherings tr none ((get_gatherings tr locale s).2)).1
          = sort_desc (fun x => x.start_time) s.store) := by
  refine ⟨rfl, rfl, rfl, rfl, ?_, ?_, ?_⟩
  · cases hfst : mcGet s.cache (cache_key locale) <;> simp [get_gatherings, hfst]
  · cases hfst : mcGet s.cache (cache_key locale) <;> simp [get_gatherings, hfst]
  · intro ht hnone
    have hne : cache_key none ≠ cache_key locale := by
      cases locale with
      | none => simp [locale_truthy] at ht
      | some l =>
        have hl : l ≠ "" := by simpa [locale_truthy] using ht
        exact Ne.symm (cache_key_some_ne_default l hl)
    cases hfst : mcGet s.cache (cache_key locale) with
    | some items => simp [get_gatherings, hfst, hnone, locale_truthy]
    | none => simp [get_gatherings, hfst, mcGet_mcSet_ne, hne, hnone, locale_truthy]

/-- Witness for C7 with the marking translation service, the French
locale and a state with an empty cache. -/
theorem c7_translation_overlay_witness :
    (translate_item trMark gd).is_draft = gd.is_draft
    ∧ (get_gatherings trMark (some "fr") s_one).2.store = s_one.store
    ∧ (get_gatherings trMark none ((get_gatherings trMark (some "fr") s_one).2)).1
        = sort_desc (fun x => x.start_time) s_one.store := by
  have h := c7_translation_overlay_frame trMark gd (some "fr") s_one
  exact ⟨h.2.2.2.1, h.2.2.2.2.1, h.2.2.2.2.2.2 (by rfl) (by rfl)⟩

/-- C8: GatheringEntity.delete performs, in this order, the removal of
any pending news item for the entity, the store delete, and the default
cache purge; after it, no news item references the entity, and when no
news item for the entity was pending the news sink is unchanged (the
removal is a no-op). -/
theorem c8_delete_order_and_news (s : RepoState) (g : Gathering) :
    (entity_delete s g).2
      = [Effect.newsRemove (resource_key g), Effect.storeDelete g.gid,
         Effect.cachePurge (cache_key none)]
    ∧ (entity_delete s g).1.store = store_delete_record s.store g.gid
    ∧ resource_key g ∉ (entity_delete s g).1.news
    ∧ (resource_key g ∉ s.news → (entity_delete s g).1.news = s.news) := by
  have hnews : (entity_delete s g).1.news = news_remove_item s.news (resource_key g) := rfl
  refine ⟨rfl, rfl, ?_, ?_⟩
  · intro hmem
    rw [hnews] at hmem
    simp [news_remove_item, List.mem_filter] at hmem
  · intro h
    rw [hnews]
    refine List.filter_eq_self.mpr ?_
    intro a ha
    have hne : a ≠ resource_key g := fun he => h (he ▸ ha)
    simpa [bne_iff_ne] using hne

/-- Witness for C8 on a state with no pending news item. -/
theorem c8_delete_witness :
    (entity_delete s_one gd).2
      = [Effect.newsRemove (resource_key gd), Effect.storeDelete gd.gid,
         Effect.cachePurge (cache_key none)]
    ∧ (entity_delete s_one gd).1.news = s_one.news := by
  have h := c8_delete_order_and_news s_one gd
  exact ⟨h.1, h.2.2.2 (by decide)⟩

/-- C9: draft gatherings are visible only to editors: apply_rights
returns the list unchanged for an editor, and otherwise returns exactly
the non-draft items in their original relative order (a sublist); a
single-item REST get of a draft gathering by a non-editor is answered
with access denied, while a published one is returned. -/
theorem c9_draft_visibility (items : List Gathering) (e : Gathering) :
    apply_rights true items = items
    ∧ apply_rights false items = items.filter (fun i => !i.is_draft)
    ∧ (apply_rights false items).Sublist items
    ∧ (e.is_draft = true → rest_get false (some e) = GetResult.accessDenied)
    ∧ (e.is_draft = false → rest_get false (some e) = GetResult.success e) := by
  have hfalse : apply_rights false items = items.filter (fun i => !i.is_draft) := by
    simpa [apply_rights] using apply_rights_foldl items []
  refine ⟨rfl, hfalse, ?_, ?_, ?_⟩
  · rw [hfalse]; exact List.filter_sublist items
  · intro h
    simp [rest_get, apply_rights, h]
  · intro h
    simp [rest_get, apply_rights, h]

/-- Witness for C9: the non-editor listing drops the draft gathering
and keeps the published one, and the non-editor single-item read of the
draft gathering is denied. -/
theorem c9_draft_visibility_witness :
    apply_rights false [gd, gp] = [gp]
    ∧ rest_get false (some gd) = GetResult.accessDenied := by
  have h := c9_draft_visibility [gd, gp] gd
  exact ⟨by rw [h.2.1]; rfl, h.2.2.2.1 (by rfl)⟩

end Gatherings
